import Mathlib

/-!
Formal model of the controller repository: the Core-XY gantry kinematic
transform, the claw and end-effector position mappers, the stepper driver
loop, and the pick-and-place orchestration of `main.py`.

Python floats are modelled as rationals, optional (`None`-able) values as
`Option`, and a raised exception as an `Except`-style error value carried
next to the trace of hardware writes that happened before the raise.
-/

namespace Controller

/-! ## Core-XY kinematics (`subsystems/gantry.py`) -/

/-- A calibration of the Core-XY transform: the zero offset `(ox, oy)`
stored in `Gantry._zero_position` and the two steps-per-inch factors
stored in `Gantry._steps_per_inch`. -/
structure Calibration where
  ox : ℚ
  oy : ℚ
  spiL : ℚ
  spiR : ℚ
  deriving DecidableEq

/-- `Gantry._cartesian_to_steps`: after `x, y = x - ox, y - oy` it returns
`round(l * (y - x)), round(r * (y + x))`. -/
def cartesianToSteps (c : Calibration) (x y : ℚ) : ℤ × ℤ :=
  (round (c.spiL * ((y - c.oy) - (x - c.ox))),
   round (c.spiR * ((y - c.oy) + (x - c.ox))))

/-- `Gantry._steps_to_cartesian`: `x, y = (right - left) / 2, (left + right) / 2`
followed by `x / l + ox, y / r + oy`. -/
def stepsToCartesian (c : Calibration) (left right : ℤ) : ℚ × ℚ :=
  (((right : ℚ) - (left : ℚ)) / 2 / c.spiL + c.ox,
   ((left : ℚ) + (right : ℚ)) / 2 / c.spiR + c.oy)

/-- Forward transform, then inverse transform, then forward transform
again: the step-space image of the point recovered from the step-space
image of `(x, y)`. -/
def roundTrip (c : Calibration) (x y : ℚ) : ℤ × ℤ :=
  let s := cartesianToSteps c x y
  let p := stepsToCartesian c s.1 s.2
  cartesianToSteps c p.1 p.2

/-- `Gantry._cartesian_to_steps` as it is evaluated during
`Gantry.__init__`: the class declares `__slots__`, so reading the slots
`_zero_position` or `_steps_per_inch` before their first assignment
raises `AttributeError`.  The two slots are therefore taken as `Option`
values, `none` standing for a still-unassigned slot. -/
def cartesianToStepsSlots (zeroPosition stepsPerInch : Option (ℚ × ℚ))
    (x y : ℚ) : Except String (ℤ × ℤ) :=
  match zeroPosition with
  | none => .error "AttributeError: _zero_position"
  | some (ox, oy) =>
    match stepsPerInch with
    | none => .error "AttributeError: _steps_per_inch"
    | some (l, r) =>
      .ok (round (l * ((y - oy) - (x - ox))), round (r * ((y - oy) + (x - ox))))

/-- `Gantry.__init__`: it assigns `_left` and `_right`, then computes
`self._zero_position = self._cartesian_to_steps(*position)` while neither
`_zero_position` nor `_steps_per_inch` has been assigned yet, and only
afterwards would assign `_steps_per_inch`. -/
def gantryInit (revolutionsPerInch stepsPerRevL stepsPerRevR px py : ℚ) :
    Except String Calibration := do
  let z ← cartesianToStepsSlots none none px py
  .ok { ox := (z.1 : ℚ), oy := (z.2 : ℚ),
        spiL := revolutionsPerInch * stepsPerRevL,
        spiR := revolutionsPerInch * stepsPerRevR }

/-! ## Claw (`subsystems/claw.py`) -/

/-- `interpolate(t, lo, hi)` from `subsystems/claw.py`. -/
def interpolate (t lo hi : ℚ) : ℚ := lo + (hi - lo) * t

/-- The calibrated claw angles; field order matches the constructor
parameters `grip_open, grip_closed, support_open, support_closed`, and
`Claw` stores `_grip_range = (grip_open, grip_closed)` and
`_support_range = (support_open, support_closed)`. -/
structure ClawCfg where
  gripOpen : ℚ
  gripClosed : ℚ
  supportOpen : ℚ
  supportClosed : ℚ
  deriving DecidableEq

/-- The constructor defaults of `Claw.__init__`, also the values passed by
`config.get_system`. -/
def defaultClawCfg : ClawCfg := ⟨165, 210, 100, 190⟩

/-- `Claw.set`: a supplied grip axis writes
`interpolate(t, *self._grip_range)` to the grip servo and a supplied
support axis writes `interpolate(t, *self._support_range)` to the support
servo; an axis that is not supplied produces no write.  The result is the
pair of written angles. -/
def clawSet (cfg : ClawCfg) (grip support : Option ℚ) : Option ℚ × Option ℚ :=
  (grip.map fun t => interpolate t cfg.gripOpen cfg.gripClosed,
   support.map fun t => interpolate t cfg.supportOpen cfg.supportClosed)

/-- `Claw.open`: `self.set(grip=1.0, support=1.0)`. -/
def clawOpen (cfg : ClawCfg) : Option ℚ × Option ℚ := clawSet cfg (some 1) (some 1)

/-- `Claw.close`: `self.set(grip=0.0, support=0.0)`. -/
def clawClose (cfg : ClawCfg) : Option ℚ × Option ℚ := clawSet cfg (some 0) (some 0)

/-! ## Differential end effector (`subsystems/end_effector.py`) -/

/-- The state of a `Differential`: the two servo angles written last, the
neutral pair captured at construction, and the two held last values. -/
structure DiffState where
  leftAngle : ℚ
  rightAngle : ℚ
  neutralL : ℚ
  neutralR : ℚ
  lastPitch : ℚ
  lastRoll : ℚ
  deriving DecidableEq

/-- `Differential.__init__`: captures `_neutral` from the current servo
angles and zeroes `_last_pitch` and `_last_roll`. -/
def diffInit (leftAngle rightAngle : ℚ) : DiffState :=
  { leftAngle := leftAngle, rightAngle := rightAngle,
    neutralL := leftAngle, neutralR := rightAngle,
    lastPitch := 0, lastRoll := 0 }

/-- `Differential.set(*, pitch=None, roll=None)`.  The source first
rebinds `pitch = pitch if pitch is not None else self._last_pitch`, so the
local `pitch` is always a number afterwards; the next line is
`roll = roll if pitch is not None else self._last_roll`, whose condition
tests that rebound local and therefore always keeps the raw `roll`
argument.  When `roll` was not supplied it is still `None` at the write
`self._left_servo.angle = l + pitch - roll`, which raises `TypeError`. -/
def diffSet (s : DiffState) (pitch roll : Option ℚ) : Except String DiffState :=
  let p := pitch.getD s.lastPitch
  match roll with
  | none => .error "TypeError: unsupported operand for float and NoneType"
  | some r =>
    .ok { s with
      leftAngle := s.neutralL + p - r,
      rightAngle := s.neutralR + p - r,
      lastPitch := p, lastRoll := r }

/-- `Differential.reset`: writes the captured neutral pair back to both
servos and zeroes `_last_pitch` and `_last_roll`. -/
def diffReset (s : DiffState) : DiffState :=
  { s with leftAngle := s.neutralL, rightAngle := s.neutralR,
           lastPitch := 0, lastRoll := 0 }

/-! ## Stepper driver loop (`devices/stepper.py`) -/

/-- Ramp parameters of one `Stepper`: `self.delay` (the cruise delay, set
through the checked `delay` setter), `self._max_delay`, and
`self.accel_steps` (stored as `max(1, accel_steps)` by the constructor). -/
structure RampCfg where
  delay : ℚ
  maxDelay : ℚ
  accelSteps : ℕ
  deriving DecidableEq

/-- `delay_step = (current_delay - self.delay) / self.accel_steps`,
computed once on entry to `Stepper.loop` where `current_delay` still
holds `self._max_delay`. -/
def delayStep (cfg : RampCfg) : ℚ :=
  (cfg.maxDelay - cfg.delay) / (cfg.accelSteps : ℚ)

/-- The body of the inner `for i in range(remaining)` of `Stepper.loop`
in target mode: step `i` of a move of `n` steps first adjusts
`current_delay` (ramp down while `i < self.accel_steps`, ramp up while
`i > remaining - self.accel_steps`, otherwise cruise at `self.delay`,
with the comparison done on Python integers) and then clamps it with
`current_delay = max(self.delay, current_delay)`. -/
def targetStep (cfg : RampCfg) (n i : ℕ) (c : ℚ) : ℚ :=
  max cfg.delay
    (if i < cfg.accelSteps then c - delayStep cfg
     else if (n : ℤ) - (cfg.accelSteps : ℤ) < (i : ℤ) then c + delayStep cfg
     else cfg.delay)

/-- Runs the remaining `k` iterations of an `n`-step targeted move,
starting at step index `i` with carried `current_delay` value `c`;
returns the list of slept per-step delays together with the final value
of `current_delay` (which the loop carries into the next move). -/
def targetRun (cfg : RampCfg) (n : ℕ) : ℕ → ℕ → ℚ → List ℚ × ℚ
  | 0, _, c => ([], c)
  | Nat.succ k, i, c =>
    let cNew := targetStep cfg n i c
    let rest := targetRun cfg n k (i + 1) cNew
    (cNew :: rest.1, rest.2)

/-- The continuous-mode body of `Stepper.loop`: while `current_delay`
exceeds `self.delay` it is decremented by `delay_step`, otherwise it is
pinned to `self.delay`. -/
def contStep (cfg : RampCfg) (c : ℚ) : ℚ :=
  if cfg.delay < c then c - delayStep cfg else cfg.delay

/-- `current_delay` after `k` continuous-mode iterations of
`Stepper.loop`, starting from `current_delay = self._max_delay` at loop
entry; the delay slept at iteration `k` is `contDelay cfg k`. -/
def contDelay (cfg : RampCfg) : ℕ → ℚ
  | 0 => cfg.maxDelay
  | Nat.succ k => contStep cfg (contDelay cfg k)

/-- The inductive invariant of the targeted-move ramp, at entry to step
index `i` of an `n`-step move with `current_delay = c`: the value is
clamped below by `self.delay`, bounded above by `self._max_delay`, during
ramp-down it is at most the start value lowered `i` times, and from the
ramp-up region on it is at most `self.delay` plus the accumulated
increments. -/
def RampInv (cfg : RampCfg) (n i : ℕ) (c : ℚ) : Prop :=
  cfg.delay ≤ c ∧ c ≤ cfg.maxDelay ∧
  (i ≤ cfg.accelSteps →
    c ≤ max cfg.delay (cfg.maxDelay - (i : ℚ) * delayStep cfg)) ∧
  (cfg.accelSteps ≤ i →
    c ≤ cfg.delay + ((i - max (n - cfg.accelSteps) cfg.accelSteps : ℕ) : ℚ) * delayStep cfg)

/-- Observable state of one `Stepper` as mutated by `Stepper.loop` in
target mode: `self.steps`, `self.direction` (the `value` of the
`Direction` member: `ccw = 1`, `cw = -1`), `self._worker_busy`, and the
loop-local `current_delay`. -/
structure MotorState where
  steps : ℤ
  direction : ℤ
  busy : Bool
  cur : ℚ
  deriving DecidableEq

/-- One iteration of the outer `while` of `Stepper.loop` with
`self.target = t` set.  If `remaining == 0` the loop parks: it clears
`_worker_busy` and sleeps `self.delay` without stepping.  Otherwise it
sets `_worker_busy`, picks the direction from the sign of `remaining`
once, and runs `abs(remaining)` iterations of the inner loop, each
calling `self.step()` (which adds `direction.value` to `self.steps`) and
sleeping the ramped delay.  Returns the new state, the trace of
`self.steps` values after each `step()`, and the slept delays. -/
def loopIterTargeted (cfg : RampCfg) (s : MotorState) (t : ℤ) :
    MotorState × List ℤ × List ℚ :=
  let remaining : ℤ := t - s.steps
  if remaining = 0 then
    ({ s with busy := false }, [], [cfg.delay])
  else
    let dir : ℤ := if 0 < remaining then 1 else -1
    let n : ℕ := remaining.natAbs
    let run := targetRun cfg n n 0 s.cur
    ({ steps := s.steps + dir * (n : ℤ), direction := dir, busy := true, cur := run.2 },
     (List.range n).map (fun i : ℕ => s.steps + dir * ((i : ℤ) + 1)),
     run.1)

/-! ## Orchestration (`subsystems/__init__.py` and `main.py`) -/

/-- One hardware write performed during the pick-and-place sequence. -/
inductive Act where
  | clawGrip (angle : ℚ)
  | clawSupport (angle : ℚ)
  | servoLeft (angle : ℚ)
  | servoRight (angle : ℚ)
  | servoYaw (angle : ℚ)
  | gantryMove (x y : ℚ)
  | gantryTarget (x y : ℚ)
  | motorEnable (left : Bool)
  deriving DecidableEq

/-- Fault injection: which underlying hardware calls raise an
`ActuatorFault` when reached. -/
structure Faults where
  clawOpen : Bool
  effectorReset : Bool
  gantryToGrab : Bool
  clawClose : Bool
  gantryToTarget : Bool
  leftEnable : Bool
  rightEnable : Bool
  deriving DecidableEq

/-- No hardware call raises. -/
def noFaults : Faults := ⟨false, false, false, false, false, false, false⟩

/-- Only the left motor driver raises on `enable()`. -/
def leftEnableFault : Faults := { noFaults with leftEnable := true }

/-- Only the right motor driver raises on `enable()`. -/
def rightEnableFault : Faults := { noFaults with rightEnable := true }

/-- Only the grip servo raises during `claw.open()`. -/
def clawOpenFault : Faults := { noFaults with clawOpen := true }

/-- `Gantry.enable`: `self._left.enable()` followed by
`self._right.enable()`, with no handler around either call, so an
exception from one driver propagates and skips the rest of the method.
The result is the list of motors actually enabled together with the
propagated error, if any. -/
def gantryEnable (f : Faults) : List Act × Option String :=
  if f.leftEnable then ([], some "ActuatorFault: left enable")
  else if f.rightEnable then
    ([Act.motorEnable true], some "ActuatorFault: right enable")
  else ([Act.motorEnable true, Act.motorEnable false], none)

/-- The writes of `Claw.open()`, in order: grip servo first, then
support servo. -/
def clawOpenActs (cfg : ClawCfg) : List Act :=
  [Act.clawGrip (interpolate 1 cfg.gripOpen cfg.gripClosed),
   Act.clawSupport (interpolate 1 cfg.supportOpen cfg.supportClosed)]

/-- The writes of `Claw.close()`, in order. -/
def clawCloseActs (cfg : ClawCfg) : List Act :=
  [Act.clawGrip (interpolate 0 cfg.gripOpen cfg.gripClosed),
   Act.clawSupport (interpolate 0 cfg.supportOpen cfg.supportClosed)]

/-- The writes of `EndEffector.reset()`: the differential writes its
captured neutral pair back to the two servos, then the yaw servo returns
to its own neutral. -/
def effectorResetActs (d : DiffState) (yawNeutral : ℚ) : List Act :=
  [Act.servoLeft d.neutralL, Act.servoRight d.neutralR, Act.servoYaw yawNeutral]

/-- A Python value passed positionally to
`System.process_sort_request`. -/
inductive PyVal where
  | num (q : ℚ)
  | pair (x y : ℚ)
  deriving DecidableEq

/-- The body of `System.process_sort_request(position)`: `claw.open()`,
`end_effector.reset()`, `gantry.run_to_position(*self._grab_position)`,
`claw.close()`, `gantry.run_to_position(*position)`.  There is no
handler in the body, so the first raise aborts the rest; the final
sub-step unpacks `position` with `*`, which raises `TypeError` when the
bound value is a number rather than a sequence.  Returns the hardware
writes performed before any raise, and the propagated error, if any. -/
def systemSortBody (f : Faults) (cfgC : ClawCfg) (d : DiffState)
    (yawNeutral : ℚ) (grab : ℚ × ℚ) (position : PyVal) :
    List Act × Option String :=
  if f.clawOpen then ([], some "ActuatorFault: claw open")
  else
    let a1 := clawOpenActs cfgC
    if f.effectorReset then (a1, some "ActuatorFault: effector reset")
    else
      let a2 := a1 ++ effectorResetActs d yawNeutral
      if f.gantryToGrab then (a2, some "ActuatorFault: gantry move")
      else
        let a3 := a2 ++ [Act.gantryMove grab.1 grab.2]
        if f.clawClose then (a3, some "ActuatorFault: claw close")
        else
          let a4 := a3 ++ clawCloseActs cfgC
          match position with
          | .num _ => (a4, some "TypeError: cannot unpack a float")
          | .pair x y =>
            if f.gantryToTarget then (a4, some "ActuatorFault: gantry move")
            else (a4 ++ [Act.gantryMove x y], none)

/-- A call to `System.process_sort_request` with a list of positional
arguments.  The method has exactly one positional parameter besides
`self`, so Python argument binding raises `TypeError` before the body
runs unless exactly one argument is passed. -/
def systemProcessSortRequest (f : Faults) (cfgC : ClawCfg) (d : DiffState)
    (yawNeutral : ℚ) (grab : ℚ × ℚ) (args : List PyVal) :
    List Act × Option String :=
  match args with
  | [position] => systemSortBody f cfgC d yawNeutral grab position
  | _ => ([], some "TypeError: process_sort_request takes 2 positional arguments but 3 were given")

/-- The three orchestrator states of `main.SystemState`. -/
inductive SysState where
  | idle
  | processing
  | sorting
  deriving DecidableEq

/-- Outcome of `WebcamMQTTPublisher.process_sort_request`: the final
`self.state`, the status publishes emitted by its transitions, the
hardware writes performed, and the exception escaping the handler, if
any. -/
structure OrchResult where
  finalState : SysState
  statusPublishes : List SysState
  acts : List Act
  error : Option String
  deriving DecidableEq

/-- `WebcamMQTTPublisher.process_sort_request(target)`: first
`set_sorting` (state to `sorting`, one status publish) and the display
writes, then `pos = target.x, GANTRY_HEIGHT - target.y` with
`GANTRY_HEIGHT = 18`, then `self.system.process_sort_request(*pos)` —
the unpacking passes the two components of `pos` as two positional
arguments.  Only when that call returns does `set_idle` run (state to
`idle`, one more status publish), followed by the non-blocking
`self.system.gantry.set_target(0, 0)`.  No handler exists anywhere in
this method, so an exception from the call propagates and aborts
everything after it. -/
def webcamProcessSortRequest (f : Faults) (cfgC : ClawCfg) (d : DiffState)
    (yawNeutral : ℚ) (grab : ℚ × ℚ) (targetX targetY : ℚ) : OrchResult :=
  let pos : ℚ × ℚ := (targetX, 18 - targetY)
  let call := systemProcessSortRequest f cfgC d yawNeutral grab
    [PyVal.num pos.1, PyVal.num pos.2]
  match call.2 with
  | some e =>
    { finalState := .sorting, statusPublishes := [.sorting],
      acts := call.1, error := some e }
  | none =>
    { finalState := .idle, statusPublishes := [.sorting, .idle],
      acts := call.1 ++ [Act.gantryTarget 0 0], error := none }

end Controller

namespace Controller

/-! ## Theorems -/

/-- Evaluation rule for `round` on a rational, with the two bounds left as
numeric side goals. -/
theorem round_rat_eq (q : ℚ) (n : ℤ) (h1 : (n : ℚ) ≤ q + 1/2)
    (h2 : q + 1/2 < (n : ℚ) + 1) : round q = n := by
  rw [round_eq]
  exact Int.floor_eq_iff.mpr ⟨h1, h2⟩

/-- C2: for every choice of constructor arguments, `Gantry.__init__`
raises `AttributeError`: it calls `_cartesian_to_steps`, whose first
statement reads the still-unassigned slot `_zero_position`, so
construction never returns a usable instance. -/
theorem gantryInitAlwaysAttributeError
    (revolutionsPerInch stepsPerRevL stepsPerRevR px py : ℚ) :
    gantryInit revolutionsPerInch stepsPerRevL stepsPerRevR px py =
      .error "AttributeError: _zero_position" := rfl

/-- C3 counterexample: with positive but unequal steps-per-inch factors
`(1, 100)` and zero offset `(0, 0)`, the point `(10, 0)` has step-space
image `(-10, 1000)`, while the recovered point maps to `(-500, 50995)`:
the left motor differs by `490` steps, far beyond the claimed `±1`. -/
theorem kinematicsRoundTripFailsUnequalSpi :
    cartesianToSteps ⟨0, 0, 1, 100⟩ 10 0 = (-10, 1000) ∧
    roundTrip ⟨0, 0, 1, 100⟩ 10 0 = (-500, 50995) ∧
    1 < ((-500 : ℤ) - (-10)).natAbs := by
  have e1 : cartesianToSteps ⟨0, 0, 1, 100⟩ 10 0 = (-10, 1000) := by
    simp only [cartesianToSteps, Prod.ext_iff]
    norm_num
    all_goals exact round_rat_eq _ _ (by norm_num) (by norm_num)
  have e2 : stepsToCartesian ⟨0, 0, 1, 100⟩ (-10) 1000 = (505, 99/20) := by
    simp only [stepsToCartesian, Prod.ext_iff]
    norm_num
  have e3 : cartesianToSteps ⟨0, 0, 1, 100⟩ 505 (99/20) = (-500, 50995) := by
    simp only [cartesianToSteps, Prod.ext_iff]
    norm_num
    all_goals exact round_rat_eq _ _ (by norm_num) (by norm_num)
  refine ⟨e1, ?_, by decide⟩
  simp only [roundTrip, e1]
  norm_num [e2, e3]

/-- C3 amended: when the two steps-per-inch factors are equal (and
positive), the step-space image of the recovered point is exactly the
original step pair, for every zero offset and every Cartesian point. -/
theorem kinematicsRoundTripEqualSpi (ox oy s x y : ℚ) (hs : 0 < s) :
    roundTrip ⟨ox, oy, s, s⟩ x y = cartesianToSteps ⟨ox, oy, s, s⟩ x y := by
  have hs0 : s ≠ 0 := ne_of_gt hs
  unfold roundTrip stepsToCartesian cartesianToSteps
  set a : ℤ := round (s * ((y - oy) - (x - ox))) with ha
  set b : ℤ := round (s * ((y - oy) + (x - ox))) with hb
  have h1 : s * ((((a : ℚ) + b) / 2 / s + oy - oy) - (((b : ℚ) - a) / 2 / s + ox - ox))
      = (a : ℚ) := by
    field_simp
    ring
  have h2 : s * ((((a : ℚ) + b) / 2 / s + oy - oy) + (((b : ℚ) - a) / 2 / s + ox - ox))
      = (b : ℚ) := by
    field_simp
    ring
  simp only [h1, h2, round_intCast]

/-- C3 witness: the amended round-trip law applied at a concrete
calibration and point. -/
theorem kinematicsRoundTripEqualSpiWitness :
    (0 : ℚ) < 2 ∧
      roundTrip ⟨5, -3, 2, 2⟩ (3/2) (7/3) = cartesianToSteps ⟨5, -3, 2, 2⟩ (3/2) (7/3) :=
  ⟨by norm_num, kinematicsRoundTripEqualSpi 5 (-3) 2 (3/2) (7/3) (by norm_num)⟩

/-- C4: calling `Differential.set` with a pitch and no roll raises
`TypeError`, because line 35 of `end_effector.py` keys the roll default on
`pitch is not None` (testing the just-rebound local, which always holds)
instead of `roll is not None`, so the unset roll stays `None` at the angle
write.  The `reset` half of the claim does hold: it restores the captured
neutral pair and zeroes both held values. -/
theorem differentialSetPitchOnlyRaises :
    diffSet (diffInit 135 135) (some 10) none =
      .error "TypeError: unsupported operand for float and NoneType" ∧
    (∀ s : DiffState, diffReset s =
      { s with leftAngle := s.neutralL, rightAngle := s.neutralR,
               lastPitch := 0, lastRoll := 0 }) :=
  ⟨rfl, fun _ => rfl⟩

/-- C5 counterexample: from neutral pair `(100, 100)`,
`set(pitch=10, roll=3)` writes `107` to both servos; the claim demands
that one of them receive `100 - 10 + 3 = 93`, but `93 < 107` and neither
written angle is `93`. -/
theorem differentialSetSignsCounterexample :
    diffSet (diffInit 100 100) (some 10) (some 3) =
      .ok { leftAngle := 107, rightAngle := 107, neutralL := 100, neutralR := 100,
            lastPitch := 10, lastRoll := 3 } ∧
    (93 : ℚ) < 107 := by
  constructor
  · simp only [diffSet, diffInit, Option.getD]
    norm_num
  · norm_num

/-- C5 amended: when both pitch and roll are supplied, `Differential.set`
writes `neutral + pitch - roll` to both servos with the same signs; the
sign inversion for the right half of the differential is not performed
here (the configuration instead constructs the right servo with
`reverse=True`). -/
theorem differentialSetSameSign (s : DiffState) (p r : ℚ) :
    diffSet s (some p) (some r) =
      .ok { s with leftAngle := s.neutralL + p - r,
                   rightAngle := s.neutralR + p - r,
                   lastPitch := p, lastRoll := r } := rfl

/-- The ramp increment is nonnegative whenever `delay ≤ max_delay`. -/
theorem delayStep_nonneg (cfg : RampCfg) (h : cfg.delay ≤ cfg.maxDelay) :
    0 ≤ delayStep cfg :=
  div_nonneg (by linarith) (by positivity)

/-- `accel_steps` many ramp increments add up exactly to
`max_delay - delay`. -/
theorem accel_mul_delayStep (cfg : RampCfg) (ha : cfg.accelSteps ≠ 0) :
    (cfg.accelSteps : ℚ) * delayStep cfg = cfg.maxDelay - cfg.delay := by
  have h : (cfg.accelSteps : ℚ) ≠ 0 := Nat.cast_ne_zero.mpr ha
  rw [delayStep]
  field_simp

/-- In continuous mode, `current_delay` is always `max_delay` minus some
number `j ≤ accel_steps` of ramp increments. -/
theorem contDelay_form (cfg : RampCfg) (hdm : cfg.delay ≤ cfg.maxDelay)
    (ha : cfg.accelSteps ≠ 0) (k : ℕ) :
    ∃ j : ℕ, j ≤ cfg.accelSteps ∧
      contDelay cfg k = cfg.maxDelay - (j : ℚ) * delayStep cfg := by
  induction k with
  | zero => exact ⟨0, Nat.zero_le _, by simp [contDelay]⟩
  | succ k ih =>
    obtain ⟨j, hj, hf⟩ := ih
    by_cases h : cfg.delay < contDelay cfg k
    · have hja : j < cfg.accelSteps := by
        rcases Nat.lt_or_ge j cfg.accelSteps with h' | h'
        · exact h'
        · exfalso
          have hje : j = cfg.accelSteps := le_antisymm hj h'
          rw [hf, hje, accel_mul_delayStep cfg ha] at h
          linarith
      have h' : cfg.delay < cfg.maxDelay - (j : ℚ) * delayStep cfg := by
        rw [hf] at h
        exact h
      refine ⟨j + 1, by omega, ?_⟩
      simp only [contDelay, contStep, hf]
      rw [if_pos h']
      push_cast
      ring
    · refine ⟨cfg.accelSteps, le_rfl, ?_⟩
      simp only [contDelay, contStep, if_neg h, accel_mul_delayStep cfg ha]
      ring

/-- Bounds of the continuous-mode ramp value. -/
theorem contDelay_bounds (cfg : RampCfg) (hdm : cfg.delay ≤ cfg.maxDelay)
    (ha : cfg.accelSteps ≠ 0) (k : ℕ) :
    cfg.delay ≤ contDelay cfg k ∧ contDelay cfg k ≤ cfg.maxDelay := by
  obtain ⟨j, hj, hf⟩ := contDelay_form cfg hdm ha k
  have hds : 0 ≤ delayStep cfg := delayStep_nonneg cfg hdm
  have hja : (j : ℚ) * delayStep cfg ≤ (cfg.accelSteps : ℚ) * delayStep cfg :=
    mul_le_mul_of_nonneg_right (by exact_mod_cast hj) hds
  have hj0 : 0 ≤ (j : ℚ) * delayStep cfg :=
    mul_nonneg (Nat.cast_nonneg j) hds
  have hacc := accel_mul_delayStep cfg ha
  rw [hf]
  constructor
  · linarith
  · linarith

/-- The targeted-move ramp invariant is preserved by one inner-loop
iteration. -/
theorem rampInv_step (cfg : RampCfg) (hdm : cfg.delay ≤ cfg.maxDelay)
    (ha : 1 ≤ cfg.accelSteps) (n i : ℕ) (c : ℚ) (hin : i < n)
    (h : RampInv cfg n i c) : RampInv cfg n (i + 1) (targetStep cfg n i c) := by
  obtain ⟨h1, h2, h3, h4⟩ := h
  have hds : 0 ≤ delayStep cfg := delayStep_nonneg cfg hdm
  have ha0 : cfg.accelSteps ≠ 0 := by omega
  have hMd : (cfg.accelSteps : ℚ) * delayStep cfg = cfg.maxDelay - cfg.delay :=
    accel_mul_delayStep cfg ha0
  by_cases hi : i < cfg.accelSteps
  · -- ramp-down branch
    have hstep : targetStep cfg n i c = max cfg.delay (c - delayStep cfg) := by
      simp [targetStep, if_pos hi]
    rw [hstep]
    refine ⟨le_max_left _ _, max_le (by linarith) (by linarith), ?_, ?_⟩
    · intro _
      have h3i := h3 (by omega)
      rcases le_max_iff.mp h3i with hc | hc
      · exact max_le (le_max_left _ _) (le_max_iff.mpr (Or.inl (by linarith)))
      · refine max_le (le_max_left _ _) (le_max_iff.mpr (Or.inr ?_))
        push_cast
        linarith
    · intro hia
      have hieq : i + 1 = cfg.accelSteps := by omega
      have hmax : cfg.accelSteps ≤ max (n - cfg.accelSteps) cfg.accelSteps :=
        le_max_right _ _
      have hm0 : (i + 1) - max (n - cfg.accelSteps) cfg.accelSteps = 0 := by omega
      rw [hm0]
      have h3i := h3 (by omega)
      have hkey : cfg.maxDelay - (i : ℚ) * delayStep cfg =
          cfg.delay + delayStep cfg := by
        have hia' : ((cfg.accelSteps : ℕ) : ℚ) = (i : ℚ) + 1 := by
          exact_mod_cast congrArg (fun x : ℕ => (x : ℚ)) hieq.symm
        nlinarith [hMd, hia']
      rcases le_max_iff.mp h3i with hc | hc
      · simp only [Nat.cast_zero, zero_mul, add_zero]
        exact max_le le_rfl (by linarith)
      · rw [hkey] at hc
        simp only [Nat.cast_zero, zero_mul, add_zero]
        exact max_le le_rfl (by linarith)
  · push_neg at hi
    have h4i := h4 hi
    by_cases hinc : (n : ℤ) - (cfg.accelSteps : ℤ) < (i : ℤ)
    · -- ramp-up branch
      have hstep : targetStep cfg n i c = max cfg.delay (c + delayStep cfg) := by
        simp [targetStep, if_neg (by omega : ¬ i < cfg.accelSteps), if_pos hinc]
      rw [hstep]
      have hna : n - cfg.accelSteps ≤ i := by omega
      have hmi : max (n - cfg.accelSteps) cfg.accelSteps ≤ i := max_le hna hi
      have hsub : (i + 1) - max (n - cfg.accelSteps) cfg.accelSteps =
          (i - max (n - cfg.accelSteps) cfg.accelSteps) + 1 := by omega
      have hnam : n - cfg.accelSteps ≤ max (n - cfg.accelSteps) cfg.accelSteps :=
        le_max_left _ _
      have hile : (i + 1) - max (n - cfg.accelSteps) cfg.accelSteps ≤
          cfg.accelSteps := by omega
      have hb : c + delayStep cfg ≤ cfg.delay +
          (((i + 1) - max (n - cfg.accelSteps) cfg.accelSteps : ℕ) : ℚ) *
            delayStep cfg := by
        rw [hsub]
        push_cast
        linarith
      have hb2 : (((i + 1) - max (n - cfg.accelSteps) cfg.accelSteps : ℕ) : ℚ) *
          delayStep cfg ≤ (cfg.accelSteps : ℚ) * delayStep cfg :=
        mul_le_mul_of_nonneg_right (by exact_mod_cast hile) hds
      refine ⟨le_max_left _ _, max_le (by linarith) (by linarith), ?_, ?_⟩
      · intro hia
        exact absurd hia (by omega)
      · intro _
        have hpos : (0 : ℚ) ≤
            (((i + 1) - max (n - cfg.accelSteps) cfg.accelSteps : ℕ) : ℚ) *
              delayStep cfg :=
          mul_nonneg (Nat.cast_nonneg _) hds
        exact max_le (by linarith) hb
    · -- cruise branch
      have hstep : targetStep cfg n i c = cfg.delay := by
        simp [targetStep, if_neg (by omega : ¬ i < cfg.accelSteps), if_neg hinc]
      rw [hstep]
      refine ⟨le_rfl, hdm, ?_, ?_⟩
      · intro _
        exact le_max_left _ _
      · intro _
        have hpos : (0 : ℚ) ≤
            (((i + 1) - max (n - cfg.accelSteps) cfg.accelSteps : ℕ) : ℚ) *
              delayStep cfg :=
          mul_nonneg (Nat.cast_nonneg _) hds
        linarith

/-- The ramp invariant holds on entry to a targeted move whenever the
carried `current_delay` lies between `delay` and `max_delay`. -/
theorem rampInv_init (cfg : RampCfg) (hdm : cfg.delay ≤ cfg.maxDelay)
    (ha : 1 ≤ cfg.accelSteps) (n : ℕ) (c : ℚ)
    (h1 : cfg.delay ≤ c) (h2 : c ≤ cfg.maxDelay) : RampInv cfg n 0 c := by
  refine ⟨h1, h2, ?_, ?_⟩
  · intro _
    refine le_max_iff.mpr (Or.inr ?_)
    simp only [Nat.cast_zero, zero_mul, sub_zero]
    exact h2
  · intro h0
    exact absurd h0 (by omega)

/-- All delays slept during the remaining iterations of a targeted move
stay within `[delay, max_delay]`, and so does the final carried value. -/
theorem targetRun_bounds (cfg : RampCfg) (hdm : cfg.delay ≤ cfg.maxDelay)
    (ha : 1 ≤ cfg.accelSteps) :
    ∀ (n k i : ℕ) (c : ℚ), i + k = n → RampInv cfg n i c →
      (∀ x ∈ (targetRun cfg n k i c).1, cfg.delay ≤ x ∧ x ≤ cfg.maxDelay) ∧
      cfg.delay ≤ (targetRun cfg n k i c).2 ∧
      (targetRun cfg n k i c).2 ≤ cfg.maxDelay := by
  intro n k
  induction k with
  | zero =>
    intro i c _ hinv
    refine ⟨?_, hinv.1, hinv.2.1⟩
    intro x hx
    simp [targetRun] at hx
  | succ k ih =>
    intro i c hik hinv
    have hin : i < n := by omega
    have hnext := rampInv_step cfg hdm ha n i c hin hinv
    obtain ⟨hall, hfin1, hfin2⟩ := ih (i + 1) (targetStep cfg n i c) (by omega) hnext
    simp only [targetRun]
    refine ⟨?_, hfin1, hfin2⟩
    intro x hx
    rcases List.mem_cons.mp hx with hx | hx
    · subst hx
      exact ⟨hnext.1, hnext.2.1⟩
    · exact hall x hx

/-- C7: with `0 < delay ≤ max_delay` and `accel_steps ≥ 1` fixed after
start, every delay slept by `Stepper.loop` lies in
`[delay, max_delay]`: in continuous mode the ramp value always does, and
in target mode every per-step delay of a move does, for every carried
entry value in `[delay, max_delay]` — in particular across consecutive
targeted moves, whose final carried value is again in the interval.  (A
parked iteration sleeps exactly `delay`.) -/
theorem stepperDelayBounds (cfg : RampCfg) (hd : 0 < cfg.delay)
    (hdm : cfg.delay ≤ cfg.maxDelay) (ha : 1 ≤ cfg.accelSteps) :
    (∀ k : ℕ, cfg.delay ≤ contDelay cfg k ∧ contDelay cfg k ≤ cfg.maxDelay) ∧
    (∀ (n : ℕ) (c : ℚ), cfg.delay ≤ c → c ≤ cfg.maxDelay →
      (∀ x ∈ (targetRun cfg n n 0 c).1, cfg.delay ≤ x ∧ x ≤ cfg.maxDelay) ∧
      cfg.delay ≤ (targetRun cfg n n 0 c).2 ∧
      (targetRun cfg n n 0 c).2 ≤ cfg.maxDelay) := by
  have ha0 : cfg.accelSteps ≠ 0 := by omega
  exact ⟨fun k => contDelay_bounds cfg hdm ha0 k,
    fun n c h1 h2 =>
      targetRun_bounds cfg hdm ha n n 0 c (by omega)
        (rampInv_init cfg hdm ha n c h1 h2)⟩

/-- C7 witness: the bounds applied to the configuration
`delay = 1, max_delay = 7, accel_steps = 2` and a three-step move entered
at the loop-entry value `7`. -/
theorem stepperDelayBoundsWitness :
    (0 : ℚ) < 1 ∧ (1 : ℚ) ≤ 7 ∧ 1 ≤ 2 ∧
    (∀ x ∈ (targetRun ⟨1, 7, 2⟩ 3 3 0 7).1, (1 : ℚ) ≤ x ∧ x ≤ 7) :=
  ⟨by norm_num, by norm_num, by norm_num,
    ((stepperDelayBounds ⟨1, 7, 2⟩ (by norm_num) (by norm_num)
      (by norm_num)).2 3 7 (by norm_num) (by norm_num)).1⟩

/-- C6: a targeted move from `steps ≠ t` finishes the inner loop with
`steps = t`; the next outer iteration parks with `busy = false` and
leaves `steps = t`; the direction is chosen once from the sign of
`t - steps` when ramping begins, and the whole position trace advances by
that one direction at every step (fixed for the duration of the move). -/
theorem stepperTargetedConverges (cfg : RampCfg) (s : MotorState) (t : ℤ)
    (h : s.steps ≠ t) :
    (loopIterTargeted cfg s t).1.steps = t ∧
    (loopIterTargeted cfg (loopIterTargeted cfg s t).1 t).1.steps = t ∧
    (loopIterTargeted cfg (loopIterTargeted cfg s t).1 t).1.busy = false ∧
    (loopIterTargeted cfg s t).1.direction = (if s.steps < t then 1 else -1) ∧
    (loopIterTargeted cfg s t).2.1 =
      (List.range (t - s.steps).natAbs).map
        (fun i : ℕ => s.steps + (if s.steps < t then 1 else -1) * ((i : ℤ) + 1)) := by
  have hne : ¬ (t - s.steps = 0) := by omega
  have hdir : (if (0 : ℤ) < t - s.steps then (1 : ℤ) else -1) =
      (if s.steps < t then 1 else -1) := by
    by_cases hp : s.steps < t
    · rw [if_pos (by omega : (0 : ℤ) < t - s.steps), if_pos hp]
    · rw [if_neg (by omega : ¬ (0 : ℤ) < t - s.steps), if_neg hp]
  have hsum : s.steps + (if s.steps < t then (1 : ℤ) else -1) *
      ((t - s.steps).natAbs : ℤ) = t := by
    by_cases hp : s.steps < t
    · rw [if_pos hp]
      omega
    · rw [if_neg hp]
      omega
  have h1 : (loopIterTargeted cfg s t).1 =
      { steps := t, direction := (if s.steps < t then 1 else -1), busy := true,
        cur := (targetRun cfg (t - s.steps).natAbs (t - s.steps).natAbs 0 s.cur).2 } := by
    simp only [loopIterTargeted, if_neg hne, hdir, hsum]
  have h2 : (loopIterTargeted cfg (loopIterTargeted cfg s t).1 t).1 =
      { steps := t, direction := (if s.steps < t then 1 else -1), busy := false,
        cur := (targetRun cfg (t - s.steps).natAbs (t - s.steps).natAbs 0 s.cur).2 } := by
    rw [h1]
    simp [loopIterTargeted]
  refine ⟨by rw [h1], by rw [h2], by rw [h2], by rw [h1], ?_⟩
  simp only [loopIterTargeted, if_neg hne, hdir]

/-- C6 witness: the convergence theorem applied to a concrete controller
at position `0` targeting `5`. -/
theorem stepperTargetedConvergesWitness :
    ((0 : ℤ) ≠ 5) ∧ (loopIterTargeted ⟨1, 7, 2⟩ ⟨0, 1, false, 7⟩ 5).1.steps = 5 :=
  ⟨by decide,
    (stepperTargetedConverges ⟨1, 7, 2⟩ ⟨0, 1, false, 7⟩ 5 (by decide)).1⟩

/-- C8: with the constructor defaults, `Claw.open()` (that is,
`set(grip=1.0, support=1.0)`) writes the angles named `grip_closed` and
`support_closed`, and `Claw.close()` writes the ones named `grip_open` and
`support_open`: `interpolate` maps `t = 0` to the open angle and `t = 1`
to the closed angle, the opposite of the claimed endpoint mapping.  An
axis that is not supplied is indeed left unwritten. -/
theorem clawOpenWritesClosedAngles :
    clawOpen defaultClawCfg =
      (some defaultClawCfg.gripClosed, some defaultClawCfg.supportClosed) ∧
    clawClose defaultClawCfg =
      (some defaultClawCfg.gripOpen, some defaultClawCfg.supportOpen) ∧
    defaultClawCfg.gripOpen < defaultClawCfg.gripClosed ∧
    clawSet defaultClawCfg none none = (none, none) := by
  simp only [clawOpen, clawClose, clawSet, interpolate, defaultClawCfg,
    Option.map_some, Option.map_none, Prod.ext_iff]
  norm_num

/-- C1: on the categorization result `{id: 3, x: 4.0, y: 2.0}` (so
`pos = (4.0, 16.0)`), the orchestrator raises `TypeError` at the call
`self.system.process_sort_request(*pos)` — `main.py` passes two
positional arguments while `System.process_sort_request` takes a single
tuple.  No claw, end-effector, or gantry sub-step runs, only the
`sorting` status is published, and the state never returns to `idle`.
The second conjunct evaluates the callee on a correctly bound tuple and
no faults: its body does perform claw open, effector reset, blocking
move to the grab pose, claw close, and the blocking move to the target,
in that order — the claimed sequence is the evident intent, and the
call-arity mismatch is the slip that prevents it from ever running. -/
theorem mainSortRequestTypeError :
    webcamProcessSortRequest noFaults defaultClawCfg (diffInit 135 135) 135
        (6, 1/2) 4 2 =
      { finalState := .sorting, statusPublishes := [.sorting], acts := [],
        error := some "TypeError: process_sort_request takes 2 positional arguments but 3 were given" } ∧
    systemSortBody noFaults defaultClawCfg (diffInit 135 135) 135 (6, 1/2)
        (PyVal.pair 4 16) =
      (clawOpenActs defaultClawCfg ++ effectorResetActs (diffInit 135 135) 135 ++
        [Act.gantryMove 6 (1/2)] ++ clawCloseActs defaultClawCfg ++
        [Act.gantryMove 4 16], none) :=
  ⟨rfl, rfl⟩

/-- C9 counterexample: when the left motor driver raises on `enable()`,
`Gantry.enable()` performs no enable at all — in particular the right
motor is not enabled — and the exception propagates to the caller; the
fault-free run enables both motors. -/
theorem gantryEnableFailureCounterexample :
    gantryEnable leftEnableFault = ([], some "ActuatorFault: left enable") ∧
    gantryEnable noFaults =
      ([Act.motorEnable true, Act.motorEnable false], none) :=
  ⟨rfl, rfl⟩

/-- C9 amended: a per-motor `enable()` failure propagates out of
`Gantry.enable()` (there is no best-effort fan-out): a left-motor
failure leaves both motors untouched, and a right-motor failure leaves
the left motor enabled but still raises to the caller. -/
theorem gantryEnableFailurePropagates :
    gantryEnable leftEnableFault = ([], some "ActuatorFault: left enable") ∧
    gantryEnable rightEnableFault =
      ([Act.motorEnable true], some "ActuatorFault: right enable") :=
  ⟨rfl, rfl⟩

/-- C10 counterexample: with the grip servo raising an `ActuatorFault`
during `claw.open()`, the orchestrator still ends with an uncaught error
and `state = sorting`, not `idle`; and the compound sequence itself
(`System.process_sort_request`, called with a correctly bound tuple)
propagates the `ActuatorFault` out instead of catching it. -/
theorem sortFaultNotCaughtCounterexample :
    (webcamProcessSortRequest clawOpenFault defaultClawCfg (diffInit 135 135)
        135 (6, 1/2) 4 2).finalState = SysState.sorting ∧
    (webcamProcessSortRequest clawOpenFault defaultClawCfg (diffInit 135 135)
        135 (6, 1/2) 4 2).error.isSome = true ∧
    systemSortBody clawOpenFault defaultClawCfg (diffInit 135 135) 135
        (6, 1/2) (PyVal.pair 4 16) = ([], some "ActuatorFault: claw open") :=
  ⟨rfl, rfl, rfl⟩

/-- C10 amended: nothing is caught at the orchestration boundary: for
every fault configuration and every inbound target, the sort handler
ends with a raised error (`error.isSome`), the state stays `sorting`
(`set_idle` is never reached), and only the `sorting` status publish
happens — the process survives only because the handler runs on its own
worker thread. -/
theorem sortErrorsPropagate (f : Faults) (cfgC : ClawCfg) (d : DiffState)
    (yawNeutral : ℚ) (grab : ℚ × ℚ) (targetX targetY : ℚ) :
    (webcamProcessSortRequest f cfgC d yawNeutral grab
        targetX targetY).error.isSome = true ∧
    (webcamProcessSortRequest f cfgC d yawNeutral grab
        targetX targetY).finalState = SysState.sorting ∧
    (webcamProcessSortRequest f cfgC d yawNeutral grab
        targetX targetY).statusPublishes = [SysState.sorting] :=
  ⟨rfl, rfl, rfl⟩

end Controller
